import Mathlib

/-!
Shallow embedding of the role-scoped data-access and cart/sale/return
consistency layer of the POS_MultiLocation repository.

The definitions below are translated from the React context modules of the
repository: `CartContext.tsx` (addItem / removeItem / updateQuantity /
clearCart), `SalesContext` (getNextInvoiceNumber / addSale / refreshSales),
`ReturnContext` (isItemReturned / addReturn / refreshReturns),
`CategoryContext` (refreshCategories / addCategory) and the POS page's
`handleConfirmCheckout`.  Quantities are integers (`ℤ`), money amounts are
rationals (`ℚ`), JavaScript `null`/`undefined` document fields become
`Option`, and the Firestore document store becomes explicit in-memory lists
threaded through each operation.  Asynchronous effects are sequential here,
matching the single-threaded event-loop execution of one session.
-/

namespace POS

/-- User roles, from `src/types` as used throughout the contexts. -/
inductive UserRole
  | superadmin
  | admin
  | manager
  | salesperson
deriving DecidableEq, Repr

/-- The fields of a user relevant to scoping and mutations. -/
structure User where
  uid : String
  role : UserRole
  locationId : Option String
  isActive : Bool
deriving DecidableEq, Repr

/-- A product document: `quantity` is the authoritative on-hand count. -/
structure Product where
  id : String
  name : String
  price : ℚ
  quantity : ℤ
  categoryId : String
  locationId : Option String
deriving DecidableEq, Repr

/-- An ephemeral cart line, as created by `CartContext.addItem`. -/
structure CartItem where
  id : String
  productId : String
  name : String
  price : ℚ
  quantity : ℤ
deriving DecidableEq, Repr

/-- Modelled from the spec: `ProductContext.updateProduct` (the
`ProductContext.tsx` module itself is not among the provided sources; only
its callers are).  Per §4.2 the ledger write persists the caller-computed
fields for the product with the given id, so the embedding replaces the
matching product document with the supplied record. -/
def updateProduct (products : List Product) (id : String) (p : Product) : List Product :=
  products.map fun q => if q.id = id then p else q

/-- The in-memory state visible to `CartContext`: the cart lines and the
products collection. -/
structure CartState where
  items : List CartItem
  products : List Product
deriving DecidableEq, Repr

/-- The guard `currentLocation && currentProduct.locationId &&
currentProduct.locationId !== currentLocation.id` of `addItem`. -/
def locationMismatch (currentLocation : Option String) (productLocation : Option String) : Bool :=
  match currentLocation, productLocation with
  | some cl, some pl => pl != cl
  | _, _ => false

/-- `CartContext.addItem` (CartContext.tsx lines 39-82).  The fresh uuid for
a new cart line is passed in as `newId`. -/
def addItem (s : CartState) (currentLocation : Option String) (newId : String)
    (product : Product) : CartState :=
  match s.products.find? fun p => p.id == product.id with
  | none => s
  | some currentProduct =>
    if currentProduct.quantity ≤ 0 then s
    else if locationMismatch currentLocation currentProduct.locationId then s
    else
      let products := updateProduct s.products currentProduct.id
        { currentProduct with quantity := currentProduct.quantity - 1 }
      let items :=
        if (s.items.find? fun item => item.productId == product.id).isSome then
          s.items.map fun item =>
            if item.productId == product.id then
              { item with quantity := item.quantity + 1 }
            else item
        else
          s.items ++ [{ id := newId, productId := product.id, name := product.name,
                        price := product.price, quantity := 1 }]
      { items := items, products := products }

/-- `CartContext.removeItem` (CartContext.tsx lines 84-103). -/
def removeItem (s : CartState) (id : String) : CartState :=
  match s.items.find? fun i => i.id == id with
  | none => s
  | some item =>
    match s.products.find? fun p => p.id == item.productId with
    | none => s
    | some product =>
      { items := s.items.filter fun i => i.id != id,
        products := updateProduct s.products product.id
          { product with quantity := product.quantity + item.quantity } }

/-- `CartContext.updateQuantity` (CartContext.tsx lines 105-137). -/
def updateQuantity (s : CartState) (id : String) (newQuantity : ℤ) : CartState :=
  if newQuantity < 1 then s
  else
    match s.items.find? fun i => i.id == id with
    | none => s
    | some item =>
      match s.products.find? fun p => p.id == item.productId with
      | none => s
      | some product =>
        let quantityDiff := newQuantity - item.quantity
        if quantityDiff > 0 ∧ product.quantity < quantityDiff then s
        else
          { items := s.items.map fun i =>
              if i.id == id then { i with quantity := newQuantity } else i,
            products := updateProduct s.products product.id
              { product with quantity := product.quantity - quantityDiff } }

/-- `CartContext.clearCart` (CartContext.tsx lines 139-143): clears the cart
lines without touching product quantities. -/
def clearCart (s : CartState) : CartState :=
  { s with items := [] }

/-- On-hand quantity of the product with the given id (0 when absent),
the observable the ledger invariants are about. -/
def qtyOf (products : List Product) (pid : String) : ℤ :=
  match products.find? fun p => p.id == pid with
  | some p => p.quantity
  | none => 0

/-- The restriction a location-scoped collection read applies: either
unrestricted or an equality filter on `locationId`. -/
inductive QueryScope
  | all
  | byLocation (id : String)
deriving DecidableEq, Repr

/-- The branch chain of `SalesContext.refreshSales` (AuthContext.tsx lines
378-435): a selected `currentLocation` first, then salesperson / manager /
admin with an assigned `locationId`, and otherwise the unrestricted query. -/
def salesQueryScope (currentLocation : Option String) (currentUser : Option User) : QueryScope :=
  match currentLocation, currentUser with
  | some l, _ => QueryScope.byLocation l
  | none, some u =>
    match u.role, u.locationId with
    | UserRole.salesperson, some lid => QueryScope.byLocation lid
    | UserRole.manager, some lid => QueryScope.byLocation lid
    | UserRole.admin, some lid => QueryScope.byLocation lid
    | _, _ => QueryScope.all
  | none, none => QueryScope.all

/-- The branch chain of `ReturnContext.refreshReturns` (part_006 lines
226-283), identical in structure to `refreshSales`. -/
def returnsQueryScope (currentLocation : Option String) (currentUser : Option User) : QueryScope :=
  match currentLocation, currentUser with
  | some l, _ => QueryScope.byLocation l
  | none, some u =>
    match u.role, u.locationId with
    | UserRole.salesperson, some lid => QueryScope.byLocation lid
    | UserRole.manager, some lid => QueryScope.byLocation lid
    | UserRole.admin, some lid => QueryScope.byLocation lid
    | _, _ => QueryScope.all
  | none, none => QueryScope.all

/-- The branch chain of `CategoryContext.refreshCategories` (part_006 lines
39-97), identical in structure to `refreshSales`. -/
def categoriesQueryScope (currentLocation : Option String) (currentUser : Option User) : QueryScope :=
  match currentLocation, currentUser with
  | some l, _ => QueryScope.byLocation l
  | none, some u =>
    match u.role, u.locationId with
    | UserRole.salesperson, some lid => QueryScope.byLocation lid
    | UserRole.manager, some lid => QueryScope.byLocation lid
    | UserRole.admin, some lid => QueryScope.byLocation lid
    | _, _ => QueryScope.all
  | none, none => QueryScope.all

/-- A persisted sale document. -/
structure Sale where
  id : String
  items : List CartItem
  subtotal : ℚ
  cgst : ℚ
  sgst : ℚ
  total : ℚ
  paymentMethod : String
  createdBy : String
  locationId : Option String
  invoiceNumber : String
deriving DecidableEq, Repr

/-- Executing a Firestore `where('locationId','==',l)` query (or the
unrestricted one) over the rows of the sales collection. -/
def runSalesQuery (scope : QueryScope) (rows : List Sale) : List Sale :=
  match scope with
  | QueryScope.all => rows
  | QueryScope.byLocation l => rows.filter fun s => s.locationId == some l

/-- The caller-supplied part of a sale
(`Omit<Sale, 'id' | 'createdAt' | 'invoiceNumber'>`). -/
structure SaleData where
  items : List CartItem
  subtotal : ℚ
  cgst : ℚ
  sgst : ℚ
  total : ℚ
  paymentMethod : String
  createdBy : String
  locationId : Option String
deriving DecidableEq, Repr

/-- The persistent state touched by `SalesContext`: the sales collection and
the `counters/sales` document (`none` when that document does not exist). -/
structure SalesState where
  sales : List Sale
  counters : Option ℕ
deriving DecidableEq, Repr

/-- The count read-and-incremented by `getNextInvoiceNumber`:
`currentCount + 1` when the counters document exists, `1` otherwise. -/
def nextCount (counters : Option ℕ) : ℕ :=
  match counters with
  | some c => c + 1
  | none => 1

/-- Little-endian decimal digits of the count, zero-extended to length 4:
the digit content of `String(currentCount).padStart(4, '0')`. -/
def padCount (c : ℕ) : List ℕ :=
  Nat.digits 10 c ++ List.replicate (4 - (Nat.digits 10 c).length) 0

/-- The characters of the zero-padded count, most significant first. -/
def countChars (c : ℕ) : List Char :=
  (padCount c).reverse.map Nat.digitChar

/-- The invoice-number format `MHF-YYYYMMDD-XXXX` of `getNextInvoiceNumber`
(AuthContext.tsx lines 441-455); `date` is `format(new Date(),'yyyyMMdd')`. -/
def formatInvoice (date : String) (c : ℕ) : String :=
  "MHF-" ++ date ++ "-" ++ String.mk (countChars c)

/-- The JavaScript test `currentUser?.role !== 'superadmin'`, negated. -/
def isSuperadminUser (u : Option User) : Bool :=
  match u with
  | some user => user.role == UserRole.superadmin
  | none => false

/-- The single error thrown by `addSale` itself: `'No location available.
Please select a location or contact an administrator.'`, the
`NoLocationAssigned` failure of the spec's error taxonomy. -/
inductive SaleError
  | noLocationAssigned
deriving DecidableEq, Repr

/-- The location-resolution block of `addSale` (AuthContext.tsx lines
462-471): the sale data's own `locationId`, else the selected location,
else the user's location. -/
def resolveSaleLocation (saleLocationId : Option String) (currentLocation : Option String)
    (currentUser : Option User) : Option String :=
  match saleLocationId with
  | some l => some l
  | none =>
    match currentLocation with
    | some l => some l
    | none =>
      match currentUser with
      | some u => u.locationId
      | none => none

/-- `SalesContext.addSale` (AuthContext.tsx lines 457-499).  The sequence is
that of the source: first `getNextInvoiceNumber` reads, increments and
persists the counter, then the location is resolved from the sale data, the
selected location, and the user's location, then the no-location guard runs,
and only then is the sale document inserted.  The returned pair is the
call's outcome together with the persistent state after the call;
`newId` stands for the Firestore-assigned document id. -/
def addSale (st : SalesState) (currentLocation : Option String) (currentUser : Option User)
    (date : String) (newId : String) (saleData : SaleData) :
    Except SaleError Sale × SalesState :=
  let invoiceNumber := formatInvoice date (nextCount st.counters)
  let st1 : SalesState := { st with counters := some (nextCount st.counters) }
  let locationId := resolveSaleLocation saleData.locationId currentLocation currentUser
  if locationId.isNone ∧ ¬ isSuperadminUser currentUser then
    (Except.error SaleError.noLocationAssigned, st1)
  else
    let sale : Sale :=
      { id := newId, items := saleData.items, subtotal := saleData.subtotal,
        cgst := saleData.cgst, sgst := saleData.sgst, total := saleData.total,
        paymentMethod := saleData.paymentMethod, createdBy := saleData.createdBy,
        locationId := locationId, invoiceNumber := invoiceNumber }
    (Except.ok sale, { st1 with sales := st1.sales ++ [sale] })

/-- A sequential chain of `addSale` calls, one per `(documentId, saleData)`
pair, as produced by successive checkouts within one session. -/
def runSales (currentLocation : Option String) (currentUser : Option User) (date : String) :
    SalesState → List (String × SaleData) → SalesState
  | st, [] => st
  | st, (newId, d) :: rest =>
    runSales currentLocation currentUser date
      (addSale st currentLocation currentUser date newId d).2 rest

/-- A returned line item; `id` is the sold cart-line identifier the
duplicate check keys on, `productId` names the live product. -/
structure ReturnItem where
  id : String
  productId : String
  name : String
  price : ℚ
  quantity : ℤ
deriving DecidableEq, Repr

/-- Return kinds: returns against a sale and returns against a purchase. -/
inductive ReturnType
  | sale
  | purchase
deriving DecidableEq, Repr

/-- A persisted return document. -/
structure ReturnRec where
  id : String
  type : ReturnType
  referenceId : String
  items : List ReturnItem
  reason : String
  total : ℚ
  refundMethod : String
  locationId : Option String
  createdBy : Option String
deriving DecidableEq, Repr

/-- Executing the returns-collection query under a scope. -/
def runReturnsQuery (scope : QueryScope) (rows : List ReturnRec) : List ReturnRec :=
  match scope with
  | QueryScope.all => rows
  | QueryScope.byLocation l => rows.filter fun r => r.locationId == some l

/-- `ReturnContext.isItemReturned` (part_006 lines 289-295): some return
referencing the order already lists an item with this identifier. -/
def isItemReturned (returns : List ReturnRec) (orderId : String) (itemId : String) : Bool :=
  returns.any fun r => r.referenceId == orderId && r.items.any fun item => item.id == itemId

/-- The form data handed to `addReturn`; `total` is the optional
caller-supplied refund total. -/
structure ReturnFormData where
  type : ReturnType
  referenceId : String
  items : List ReturnItem
  reason : String
  total : Option ℚ
  refundMethod : String
deriving DecidableEq, Repr

/-- The errors `addReturn` throws, in the spec's taxonomy:
`DuplicateReturn` for an already-returned item, `NoLocationAssigned` for the
no-location guard, and the product-lookup failure. -/
inductive ReturnError
  | duplicateReturn (name : String)
  | noLocationAssigned
  | productNotFound (name : String)
deriving DecidableEq, Repr

/-- The persistent state touched by `ReturnContext`: the returns collection
and the shared products collection. -/
structure ReturnState where
  returns : List ReturnRec
  products : List Product
deriving DecidableEq, Repr

/-- The fallback refund total
`data.items.reduce((sum, item) => sum + item.price * item.quantity, 0)`. -/
def returnItemsSum (items : List ReturnItem) : ℚ :=
  items.foldl (fun sum item => sum + item.price * (item.quantity : ℚ)) 0

/-- The signed ledger delta of one returned item:
`data.type === 'sale' ? item.quantity : -item.quantity`. -/
def returnDelta (ty : ReturnType) (q : ℤ) : ℤ :=
  match ty with
  | ReturnType.sale => q
  | ReturnType.purchase => -q

/-- The location-resolution block shared by `addReturn` (part_006 lines
334-341) and `addCategory` (part_006 lines 106-113): the selected location,
else the user's location, else null. -/
def resolveContextLocation (currentLocation : Option String) (currentUser : Option User) :
    Option String :=
  match currentLocation with
  | some l => some l
  | none =>
    match currentUser with
    | some u => u.locationId
    | none => none

/-- The product-update loop of `addReturn` (part_006 lines 347-362).  Items
are processed in order; a missing product aborts the loop, leaving the
updates already made in place (no rollback, exactly as in the source). -/
def applyReturnItems (ty : ReturnType) (products : List Product) :
    List ReturnItem → Option ReturnError × List Product
  | [] => (none, products)
  | item :: rest =>
    match products.find? fun p => p.id == item.productId with
    | none => (some (ReturnError.productNotFound item.name), products)
    | some product =>
      applyReturnItems ty
        (updateProduct products product.id
          { product with quantity := product.quantity + returnDelta ty item.quantity })
        rest

/-- `ReturnContext.addReturn` (part_006 lines 321-390).  The order is that
of the source: the per-item duplicate check over the whole submission, then
the refund total (`data.total || computed sum` — JavaScript falsiness, so a
zero caller total falls back to the computed sum), then location resolution
and the no-location guard, then the product-quantity loop, and finally the
insertion of the return document.  The result pairs the thrown error (if
any) with the state as of the last successful write. -/
def addReturn (st : ReturnState) (currentLocation : Option String) (currentUser : Option User)
    (newId : String) (data : ReturnFormData) : Option ReturnError × ReturnState :=
  match data.items.find? fun item => isItemReturned st.returns data.referenceId item.id with
  | some item => (some (ReturnError.duplicateReturn item.name), st)
  | none =>
    let total :=
      match data.total with
      | some t => if t = 0 then returnItemsSum data.items else t
      | none => returnItemsSum data.items
    let locationId := resolveContextLocation currentLocation currentUser
    if locationId.isNone ∧ ¬ isSuperadminUser currentUser then
      (some ReturnError.noLocationAssigned, st)
    else
      let applied := applyReturnItems data.type st.products data.items
      match applied.1 with
      | some e => (some e, { st with products := applied.2 })
      | none =>
        (none,
          { returns := st.returns ++
              [{ id := newId, type := data.type, referenceId := data.referenceId,
                 items := data.items, reason := data.reason, total := total,
                 refundMethod := data.refundMethod, locationId := locationId,
                 createdBy := currentUser.map fun u => u.uid }],
            products := applied.2 })

/-- A category document (name, description, location). -/
structure Category where
  name : String
  description : Option String
  locationId : Option String
deriving DecidableEq, Repr

/-- `CategoryContext.addCategory` (part_006 lines 103-134): location
resolution and the no-location guard, then the insertion. -/
def addCategory (cats : List Category) (currentLocation : Option String)
    (currentUser : Option User) (name : String) (description : Option String) :
    Option SaleError × List Category :=
  let locationId := resolveContextLocation currentLocation currentUser
  if locationId.isNone ∧ ¬ isSuperadminUser currentUser then
    (some SaleError.noLocationAssigned, cats)
  else
    (none, cats ++ [{ name := name, description := description, locationId := locationId }])

/-- The GST rate constant of `CartContext` (5% = 2.5% CGST + 2.5% SGST). -/
def GST_RATE : ℚ := 5 / 100

/-- The derived cart subtotal
`items.reduce((sum, item) => sum + item.price * item.quantity, 0)`. -/
def cartSubtotal (items : List CartItem) : ℚ :=
  items.foldl (fun sum item => sum + item.price * (item.quantity : ℚ)) 0

/-- The derived CGST component `subtotal * (GST_RATE / 2)`. -/
def cartCgst (items : List CartItem) : ℚ :=
  cartSubtotal items * (GST_RATE / 2)

/-- The derived SGST component `subtotal * (GST_RATE / 2)`. -/
def cartSgst (items : List CartItem) : ℚ :=
  cartSubtotal items * (GST_RATE / 2)

/-- The derived cart total `subtotal + cgst + sgst`. -/
def cartTotal (items : List CartItem) : ℚ :=
  cartSubtotal items + cartCgst items + cartSgst items

/-- `POSPage.handleConfirmCheckout` (part_003 lines 195-228): snapshot the
cart lines into the sale data, call `addSale`, and clear the cart on
success; the catch branch leaves the cart as it is.  Neither path touches
product quantities. -/
def handleConfirmCheckout (cart : CartState) (st : SalesState)
    (currentLocation : Option String) (currentUser : Option User)
    (date : String) (newId : String) (paymentMethod : String) :
    CartState × SalesState :=
  match currentUser with
  | none => (cart, st)
  | some u =>
    let saleData : SaleData :=
      { items := cart.items, subtotal := cartSubtotal cart.items,
        cgst := cartCgst cart.items, sgst := cartSgst cart.items,
        total := cartTotal cart.items, paymentMethod := paymentMethod,
        createdBy := u.uid, locationId := u.locationId }
    match addSale st currentLocation currentUser date newId saleData with
    | (Except.ok _, st2) => (clearCart cart, st2)
    | (Except.error _, st2) => (cart, st2)

/-! ### Helper lemmas about product lookup and the ledger write -/

/-- A successful lookup returns a product with the queried id, drawn from
the collection. -/
theorem find?_eq_some_id {ps : List Product} {pid : String} {cp : Product}
    (h : (ps.find? fun x => x.id == pid) = some cp) : cp.id = pid ∧ cp ∈ ps := by
  refine ⟨?_, List.mem_of_find?_eq_some h⟩
  have := List.find?_some h
  exact beq_iff_eq.mp this

/-- Writing a product does not disturb lookups of other ids. -/
theorem find?_updateProduct_ne {ps : List Product} {id pid : String} {p : Product}
    (hp : p.id = id) (hne : pid ≠ id) :
    ((updateProduct ps id p).find? fun q => q.id == pid) = ps.find? fun q => q.id == pid := by
  induction ps with
  | nil => rfl
  | cons q ps ih =>
    have hstep : updateProduct (q :: ps) id p
        = (if q.id = id then p else q) :: updateProduct ps id p := rfl
    rw [hstep]
    by_cases hq : q.id = id
    · rw [if_pos hq]
      have h1 : (q.id == pid) = false := by
        rw [hq]
        exact beq_eq_false_iff_ne.mpr (Ne.symm hne)
      have h2 : (p.id == pid) = false := by
        rw [hp]
        exact beq_eq_false_iff_ne.mpr (Ne.symm hne)
      simp only [List.find?_cons, h1, h2]
      exact ih
    · rw [if_neg hq]
      by_cases hqp : q.id = pid
      · have h1 : (q.id == pid) = true := beq_iff_eq.mpr hqp
        simp only [List.find?_cons, h1]
      · have h1 : (q.id == pid) = false := beq_eq_false_iff_ne.mpr hqp
        simp only [List.find?_cons, h1]
        exact ih

/-- After writing product `p` over the product found at `pid`, the lookup
at `pid` returns `p`. -/
theorem find?_updateProduct_self {ps : List Product} {pid : String} {cp p : Product}
    (hfind : (ps.find? fun x => x.id == pid) = some cp) (hp : p.id = cp.id) :
    ((updateProduct ps cp.id p).find? fun x => x.id == pid) = some p := by
  have hcp : cp.id = pid := (find?_eq_some_id hfind).1
  induction ps with
  | nil => simp at hfind
  | cons q ps ih =>
    have hstep : updateProduct (q :: ps) cp.id p
        = (if q.id = cp.id then p else q) :: updateProduct ps cp.id p := rfl
    rw [hstep]
    by_cases hq : q.id = pid
    · have hb : (q.id == pid) = true := beq_iff_eq.mpr hq
      have hq2 : q = cp := by
        simp only [List.find?_cons, hb] at hfind
        exact Option.some.inj hfind
      rw [if_pos (by rw [hq2])]
      have hb2 : (p.id == pid) = true := beq_iff_eq.mpr (by rw [hp, hcp])
      simp only [List.find?_cons, hb2]
    · have hb : (q.id == pid) = false := beq_eq_false_iff_ne.mpr hq
      have hqid : ¬ q.id = cp.id := by rw [hcp]; exact hq
      rw [if_neg hqid]
      simp only [List.find?_cons, hb] at hfind ⊢
      exact ih hfind

/-- Membership in a written collection comes from the new record or from an
untouched old one. -/
theorem mem_updateProduct {ps : List Product} {id : String} {p q : Product}
    (h : q ∈ updateProduct ps id p) : q = p ∨ q ∈ ps := by
  obtain ⟨x, hx, hq⟩ := List.mem_map.mp h
  by_cases hxid : x.id = id
  · left; simp [hxid] at hq; exact hq.symm
  · right; simp [hxid] at hq; exact hq ▸ hx

/-- Ledger-write counterpart of `find?_updateProduct_ne` at the level of
observed quantities. -/
theorem qtyOf_updateProduct_ne {ps : List Product} {id pid : String} {p : Product}
    (hp : p.id = id) (hne : pid ≠ id) :
    qtyOf (updateProduct ps id p) pid = qtyOf ps pid := by
  unfold qtyOf
  rw [find?_updateProduct_ne hp hne]

/-- Ledger-write counterpart of `find?_updateProduct_self`: the observed
quantity at the written id is the written quantity. -/
theorem qtyOf_updateProduct_self {ps : List Product} {pid : String} {cp p : Product}
    (hfind : (ps.find? fun x => x.id == pid) = some cp) (hp : p.id = cp.id) :
    qtyOf (updateProduct ps cp.id p) pid = p.quantity := by
  unfold qtyOf
  rw [find?_updateProduct_self hfind hp]

/-! ### C1: cart-path ledger deltas never drive a quantity negative -/

/-- C1.  `addItem` is rejected (the state is returned unchanged, before any
decrement) when the live product's quantity is ≤ 0, `updateQuantity` is
rejected when the increase `diff = newQuantity - oldQuantity` exceeds the
live product quantity, and consequently both operations preserve
nonnegativity of every product quantity. -/
theorem c1_quantity_nonneg (s : CartState) (currentLocation : Option String)
    (newId : String) (p : Product) (id : String) (newQuantity : ℤ)
    (hpos : ∀ q ∈ s.products, 0 ≤ q.quantity) :
    (∀ cp, (s.products.find? fun x => x.id == p.id) = some cp → cp.quantity ≤ 0 →
      addItem s currentLocation newId p = s) ∧
    (∀ item product, (s.items.find? fun i => i.id == id) = some item →
      (s.products.find? fun x => x.id == item.productId) = some product →
      0 < newQuantity - item.quantity → product.quantity < newQuantity - item.quantity →
      updateQuantity s id newQuantity = s) ∧
    (∀ q ∈ (addItem s currentLocation newId p).products, 0 ≤ q.quantity) ∧
    (∀ q ∈ (updateQuantity s id newQuantity).products, 0 ≤ q.quantity) := by
  refine ⟨?_, ?_, ?_, ?_⟩
  · intro cp hfind hle
    simp only [addItem, hfind]
    rw [if_pos hle]
  · intro item product hitem hprod hdiff hlt
    by_cases h1 : newQuantity < 1
    · simp only [updateQuantity, if_pos h1]
    · simp only [updateQuantity, if_neg h1, hitem, hprod]
      rw [if_pos ⟨hdiff, hlt⟩]
  · intro q hq
    simp only [addItem] at hq
    cases hfind : s.products.find? fun x => x.id == p.id with
    | none => rw [hfind] at hq; exact hpos q hq
    | some cp =>
      rw [hfind] at hq
      dsimp only at hq
      by_cases hle : cp.quantity ≤ 0
      · rw [if_pos hle] at hq; exact hpos q hq
      · rw [if_neg hle] at hq
        by_cases hmis : locationMismatch currentLocation cp.locationId = true
        · rw [if_pos hmis] at hq; exact hpos q hq
        · rw [if_neg hmis] at hq
          dsimp only at hq
          rcases mem_updateProduct hq with h | h
          · have hmem : cp ∈ s.products := (find?_eq_some_id hfind).2
            have := hpos cp hmem
            rw [h]
            dsimp only
            omega
          · exact hpos q h
  · intro q hq
    simp only [updateQuantity] at hq
    by_cases h1 : newQuantity < 1
    · rw [if_pos h1] at hq; exact hpos q hq
    · rw [if_neg h1] at hq
      cases hitem : s.items.find? fun i => i.id == id with
      | none => rw [hitem] at hq; exact hpos q hq
      | some item =>
        rw [hitem] at hq
        dsimp only at hq
        cases hprod : s.products.find? fun x => x.id == item.productId with
        | none => rw [hprod] at hq; exact hpos q hq
        | some product =>
          rw [hprod] at hq
          dsimp only at hq
          by_cases hrej : 0 < newQuantity - item.quantity ∧
              product.quantity < newQuantity - item.quantity
          · rw [if_pos hrej] at hq; exact hpos q hq
          · rw [if_neg hrej] at hq
            dsimp only at hq
            rcases mem_updateProduct hq with h | h
            · have hmem : product ∈ s.products := (find?_eq_some_id hprod).2
              have := hpos product hmem
              rw [h]
              dsimp only
              omega
            · exact hpos q h

/-- Example data: a cart over one product that is out of stock. -/
def soldOutProduct : Product :=
  { id := "p1", name := "Ragi Flour", price := 10, quantity := 0,
    categoryId := "c1", locationId := none }

/-- Example data: the cart state holding only `soldOutProduct`. -/
def soldOutCart : CartState :=
  { items := [], products := [soldOutProduct] }

/-- Witness for C1 at a concrete state: adding a sold-out product is a
no-op, so its quantity stays 0 rather than going to −1. -/
theorem c1_quantity_nonneg_witness :
    addItem soldOutCart none "i1" soldOutProduct = soldOutCart :=
  (c1_quantity_nonneg soldOutCart none "i1" soldOutProduct "i1" 1
      (by decide)).1 soldOutProduct (by decide) (by decide)

/-! ### C5: checkout applies no further ledger delta -/

/-- Scenario A data: product `P` starting at quantity 5. -/
def scenarioProductP : Product :=
  { id := "P", name := "Millet Mix", price := 10, quantity := 5,
    categoryId := "c1", locationId := none }

/-- Scenario A data: the cart after adding `P` three times. -/
def scenarioCartAfterAdds : CartState :=
  addItem (addItem (addItem { items := [], products := [scenarioProductP] }
    none "i1" scenarioProductP) none "i1" scenarioProductP) none "i1" scenarioProductP

/-- Scenario A data: the salesperson performing the checkout. -/
def scenarioSeller : User :=
  { uid := "u1", role := UserRole.salesperson, locationId := some "L1", isActive := true }

/-- Scenario A data: an empty sales collection with no counters document. -/
def scenarioSales0 : SalesState := { sales := [], counters := none }

/-- C5.  Checkout (`addSale` on the cart snapshot followed by `clearCart`,
or the catch branch when `addSale` throws) never changes any product
quantity, and in Scenario A the product that went from 5 to 2 during the
three `addItem` calls still has quantity 2 after a cash checkout that
persists the sale with its 3-unit line. -/
theorem c5_checkout_frame :
    (∀ (cart : CartState) (st : SalesState) (cl : Option String) (cu : Option User)
        (date newId pm : String),
      ((handleConfirmCheckout cart st cl cu date newId pm).1).products = cart.products) ∧
    qtyOf scenarioCartAfterAdds.products "P" = 2 ∧
    qtyOf ((handleConfirmCheckout scenarioCartAfterAdds scenarioSales0 none
        (some scenarioSeller) "20260101" "s1" "cash").1).products "P" = 2 ∧
    ((handleConfirmCheckout scenarioCartAfterAdds scenarioSales0 none
        (some scenarioSeller) "20260101" "s1" "cash").2).sales.map
      (fun sa => (sa.paymentMethod, sa.items.map fun i => (i.productId, i.quantity)))
      = [("cash", [("P", 3)])] := by
  refine ⟨?_, by decide, by decide, by decide⟩
  intro cart st cl cu date newId pm
  unfold handleConfirmCheckout
  cases cu with
  | none => rfl
  | some u =>
    dsimp only
    split <;> rfl

/-! ### C6: add-then-remove round trip -/

/-- Counterexample data for C6: one unit of `p1` on hand. -/
def roundTripProduct : Product :=
  { id := "p1", name := "Jowar Flour", price := 10, quantity := 1,
    categoryId := "c1", locationId := none }

/-- Counterexample data for C6: the cart already holds one unit of `p1` in
line `i1`. -/
def roundTripCart : CartState :=
  { items := [{ id := "i1", productId := "p1", name := "Jowar Flour",
                price := 10, quantity := 1 }],
    products := [roundTripProduct] }

/-- Counterexample to C6 as stated: when the cart already holds a line for
the product, `addItem` increments that line (to quantity 2), and
`removeItem` of the resulting cart item credits the whole line back, so the
product ends at quantity 2, not at its pre-add value 1, and the cart line
is gone instead of restored. -/
theorem c6_round_trip_counterexample :
    qtyOf roundTripCart.products "p1" = 1 ∧
    (roundTripCart.items.map fun i => (i.id, i.productId, i.quantity))
      = [("i1", "p1", 1)] ∧
    ((addItem roundTripCart none "i2" roundTripProduct).items.map
      fun i => (i.id, i.productId, i.quantity)) = [("i1", "p1", 2)] ∧
    qtyOf ((removeItem (addItem roundTripCart none "i2" roundTripProduct) "i1").products) "p1"
      = 2 ∧
    (removeItem (addItem roundTripCart none "i2" roundTripProduct) "i1").items = [] ∧
    (2 : ℤ) ≠ 1 := by
  decide

/-- C6 (amended).  The round trip `addItem p; removeItem` restores every
product quantity and the exact cart line list provided the cart held no
line for `p` before the add (so the removed line is the one-unit line the
add created); the generated line id must be fresh, as a uuid is. -/
theorem c6_round_trip_amended (s : CartState) (currentLocation : Option String)
    (p cp : Product) (newId : String)
    (hfind : (s.products.find? fun x => x.id == p.id) = some cp)
    (hq : 0 < cp.quantity)
    (hloc : locationMismatch currentLocation cp.locationId = false)
    (hnew : (s.items.find? fun i => i.productId == p.id) = none)
    (hfresh : ∀ i ∈ s.items, ¬ i.id = newId) :
    (removeItem (addItem s currentLocation newId p) newId).items = s.items ∧
    ∀ pid, qtyOf ((removeItem (addItem s currentLocation newId p) newId).products) pid
      = qtyOf s.products pid := by
  have hcpid : cp.id = p.id := (find?_eq_some_id hfind).1
  have hstep1 : addItem s currentLocation newId p =
      { items := s.items ++ [({ id := newId, productId := p.id, name := p.name,
                                price := p.price, quantity := 1 } : CartItem)],
        products := updateProduct s.products cp.id
          { cp with quantity := cp.quantity - 1 } } := by
    simp only [addItem, hfind]
    rw [if_neg (by omega), if_neg (by rw [hloc]; exact Bool.false_ne_true)]
    rw [hnew]
    rfl
  rw [hstep1]
  have hnone : (s.items.find? fun i => i.id == newId) = none :=
    List.find?_eq_none.mpr fun i hi => by
      simp only [beq_iff_eq]
      exact hfresh i hi
  have hitems : ((s.items ++ [({ id := newId, productId := p.id, name := p.name,
                                 price := p.price, quantity := 1 } : CartItem)]).find?
        fun i => i.id == newId)
      = some ({ id := newId, productId := p.id, name := p.name, price := p.price,
                quantity := 1 } : CartItem) := by
    rw [List.find?_append, hnone]
    simp [List.find?_cons]
  have hfind1 := find?_updateProduct_self hfind
    (p := { cp with quantity := cp.quantity - 1 }) rfl
  have hstep2 : removeItem
      { items := s.items ++ [({ id := newId, productId := p.id, name := p.name,
                                price := p.price, quantity := 1 } : CartItem)],
        products := updateProduct s.products cp.id
          { cp with quantity := cp.quantity - 1 } }
      newId =
      { items := (s.items ++ [({ id := newId, productId := p.id, name := p.name,
                                 price := p.price, quantity := 1 } : CartItem)]).filter
          fun i => i.id != newId,
        products := updateProduct
          (updateProduct s.products cp.id { cp with quantity := cp.quantity - 1 })
          cp.id { cp with quantity := cp.quantity - 1 + 1 } } := by
    simp only [removeItem, hitems, hfind1]
  rw [hstep2]
  dsimp only
  constructor
  · rw [List.filter_append]
    have h1 : (s.items.filter fun i => i.id != newId) = s.items :=
      List.filter_eq_self.mpr fun i hi => by
        simp only [bne_iff_ne, ne_eq]
        exact hfresh i hi
    rw [h1]
    simp
  · intro pid
    by_cases hpid : pid = cp.id
    · subst hpid
      have hfind0 : (s.products.find? fun x => x.id == cp.id) = some cp := by
        rw [hcpid]
        exact hfind
      have hfind2 : ((updateProduct s.products cp.id
          { cp with quantity := cp.quantity - 1 }).find? fun x => x.id == cp.id)
          = some { cp with quantity := cp.quantity - 1 } := by
        have h3 := hfind1
        rw [← hcpid] at h3
        exact h3
      have h4 := @qtyOf_updateProduct_self
        (updateProduct s.products cp.id { cp with quantity := cp.quantity - 1 })
        cp.id { cp with quantity := cp.quantity - 1 }
        { cp with quantity := cp.quantity - 1 + 1 } hfind2 rfl
      dsimp only at h4
      have h5 : qtyOf s.products cp.id = cp.quantity := by
        unfold qtyOf
        rw [hfind0]
      rw [h5]
      have h6 : qtyOf (updateProduct
          (updateProduct s.products cp.id { cp with quantity := cp.quantity - 1 })
          cp.id { cp with quantity := cp.quantity - 1 + 1 }) cp.id
          = cp.quantity - 1 + 1 := h4
      rw [h6]
      omega
    · rw [qtyOf_updateProduct_ne (p := { cp with quantity := cp.quantity - 1 + 1 }) rfl hpid,
        qtyOf_updateProduct_ne (p := { cp with quantity := cp.quantity - 1 }) rfl hpid]

/-- Witness data for C6: two units of `p2` on hand and an empty cart. -/
def freshProduct : Product :=
  { id := "p2", name := "Bajra Flour", price := 20, quantity := 2,
    categoryId := "c1", locationId := none }

/-- Witness data for C6: the empty cart over `freshProduct`. -/
def freshCart : CartState :=
  { items := [], products := [freshProduct] }

/-- Witness for C6 (amended) at a concrete state: with no pre-existing cart
line, add-then-remove restores the empty cart and the quantity 2. -/
theorem c6_round_trip_amended_witness :
    (removeItem (addItem freshCart none "i9" freshProduct) "i9").items = freshCart.items ∧
    qtyOf ((removeItem (addItem freshCart none "i9" freshProduct) "i9").products) "p2"
      = qtyOf freshCart.products "p2" :=
  ⟨(c6_round_trip_amended freshCart none freshProduct freshProduct "i9" (by decide) (by decide)
      (by decide) (by decide) (by decide)).1,
   (c6_round_trip_amended freshCart none freshProduct freshProduct "i9" (by decide) (by decide)
      (by decide) (by decide) (by decide)).2 "p2"⟩

/-! ### C2 and C3: location scoping of reads, and the no-location user -/

/-- Counterexample data: a salesperson assigned to location `L1`. -/
def salespersonAtL1 : User :=
  { uid := "u2", role := UserRole.salesperson, locationId := some "L1", isActive := true }

/-- Counterexample to C2 as stated: with a selected location `L2`, the read
of a salesperson assigned to `L1` is filtered by `L2`, not by the user's
own `locationId` — the `currentLocation` branch takes precedence for every
role. -/
theorem c2_scope_counterexample :
    salespersonAtL1.role = UserRole.salesperson ∧
    salespersonAtL1.locationId = some "L1" ∧
    salesQueryScope (some "L2") (some salespersonAtL1) = QueryScope.byLocation "L2" ∧
    salesQueryScope (some "L2") (some salespersonAtL1) ≠ QueryScope.byLocation "L1" := by
  decide

/-- C2 (amended).  The selected location, when present, takes precedence
for every role; with no selection, admin / manager / salesperson users with
an assigned location are filtered by their own `locationId`; every other
no-selection case (no user, superadmin, or missing `locationId`) is
unrestricted.  The same resolver governs sales, returns and categories. -/
theorem c2_scope_amended (currentLocation : Option String) (currentUser : Option User) :
    (∀ l, currentLocation = some l →
      salesQueryScope currentLocation currentUser = QueryScope.byLocation l ∧
      returnsQueryScope currentLocation currentUser = QueryScope.byLocation l ∧
      categoriesQueryScope currentLocation currentUser = QueryScope.byLocation l) ∧
    (∀ u lid, currentLocation = none → currentUser = some u → u.locationId = some lid →
      (u.role = UserRole.admin ∨ u.role = UserRole.manager ∨ u.role = UserRole.salesperson) →
      salesQueryScope currentLocation currentUser = QueryScope.byLocation lid ∧
      returnsQueryScope currentLocation currentUser = QueryScope.byLocation lid ∧
      categoriesQueryScope currentLocation currentUser = QueryScope.byLocation lid) ∧
    (currentLocation = none →
      (∀ u, currentUser = some u → u.role = UserRole.superadmin ∨ u.locationId = none) →
      salesQueryScope currentLocation currentUser = QueryScope.all ∧
      returnsQueryScope currentLocation currentUser = QueryScope.all ∧
      categoriesQueryScope currentLocation currentUser = QueryScope.all) := by
  refine ⟨?_, ?_, ?_⟩
  · intro l hl
    subst hl
    exact ⟨rfl, rfl, rfl⟩
  · intro u lid hcl hcu hlid hrole
    subst hcl
    subst hcu
    rcases hrole with h | h | h <;>
      simp [salesQueryScope, returnsQueryScope, categoriesQueryScope, h, hlid]
  · intro hcl hu
    subst hcl
    cases currentUser with
    | none => exact ⟨rfl, rfl, rfl⟩
    | some u =>
      rcases hu u rfl with h | h <;>
        cases hrole : u.role <;>
          simp [salesQueryScope, returnsQueryScope, categoriesQueryScope, hrole, h] <;>
            simp [hrole] at h

/-- Witness for C2 (amended): a superadmin with location `L1` selected gets
the `L1` filter. -/
theorem c2_scope_amended_witness :
    salesQueryScope (some "L1") none = QueryScope.byLocation "L1" :=
  ((c2_scope_amended (some "L1") none).1 "L1" rfl).1

/-- Counterexample data: an admin with no assigned location. -/
def adminNoLocation : User :=
  { uid := "u3", role := UserRole.admin, locationId := none, isActive := true }

/-- Counterexample data: a sale recorded at location `L1`. -/
def sampleSaleAtL1 : Sale :=
  { id := "s1", items := [], subtotal := 0, cgst := 0, sgst := 0, total := 0,
    paymentMethod := "cash", createdBy := "u1", locationId := some "L1",
    invoiceNumber := "MHF-20260101-0001" }

/-- Counterexample to C3 as stated: a non-superadmin user with no assigned
location (and no selected location) falls through to the unrestricted
branch, so the read returns every row — not an empty result set. -/
theorem c3_no_location_read_counterexample :
    adminNoLocation.role ≠ UserRole.superadmin ∧
    adminNoLocation.locationId = none ∧
    salesQueryScope none (some adminNoLocation) = QueryScope.all ∧
    runSalesQuery (salesQueryScope none (some adminNoLocation)) [sampleSaleAtL1]
      = [sampleSaleAtL1] ∧
    [sampleSaleAtL1] ≠ ([] : List Sale) := by
  decide

/-- C3 (amended).  For a non-superadmin user with no assigned location and
no selected location, scoped reads are unrestricted (they return all rows,
the superadmin branch, rather than an empty set), while the mutating
operations `addSale`, `addReturn` and `addCategory` do fail with the
no-location error and leave their collections unchanged. -/
theorem c3_no_location_amended (u : User) (hloc : u.locationId = none) :
    (salesQueryScope none (some u) = QueryScope.all ∧
     returnsQueryScope none (some u) = QueryScope.all ∧
     categoriesQueryScope none (some u) = QueryScope.all ∧
     ∀ rows : List Sale, runSalesQuery (salesQueryScope none (some u)) rows = rows) ∧
    (u.role ≠ UserRole.superadmin →
      (∀ st date newId d, d.locationId = none →
        (addSale st none (some u) date newId d).1 = Except.error SaleError.noLocationAssigned ∧
        ((addSale st none (some u) date newId d).2).sales = st.sales) ∧
      (∀ st newId data,
        ((data.items.find? fun item =>
          isItemReturned st.returns data.referenceId item.id) = none) →
        addReturn st none (some u) newId data = (some ReturnError.noLocationAssigned, st)) ∧
      (∀ cats name desc,
        addCategory cats none (some u) name desc = (some SaleError.noLocationAssigned, cats))) := by
  have hsup : ∀ h : u.role ≠ UserRole.superadmin, isSuperadminUser (some u) = false := by
    intro h
    simp [isSuperadminUser, h]
  have hall : salesQueryScope none (some u) = QueryScope.all ∧
      returnsQueryScope none (some u) = QueryScope.all ∧
      categoriesQueryScope none (some u) = QueryScope.all := by
    cases hrole : u.role <;>
      simp [salesQueryScope, returnsQueryScope, categoriesQueryScope, hrole, hloc]
  constructor
  · refine ⟨hall.1, hall.2.1, hall.2.2, ?_⟩
    intro rows
    rw [hall.1]
    rfl
  · intro hns
    refine ⟨?_, ?_, ?_⟩
    · intro st date newId d hd
      simp only [addSale, resolveSaleLocation, hd, hloc]
      rw [if_pos ⟨rfl, by simp [hsup hns]⟩]
      exact ⟨rfl, rfl⟩
    · intro st newId data hdup
      simp only [addReturn, resolveContextLocation, hdup, hloc]
      rw [if_pos ⟨rfl, by simp [hsup hns]⟩]
    · intro cats name desc
      simp only [addCategory, resolveContextLocation, hloc]
      rw [if_pos ⟨rfl, by simp [hsup hns]⟩]

/-- Witness for C3 (amended): the concrete no-location admin gets the
unrestricted read and a rejected `addCategory`. -/
theorem c3_no_location_amended_witness :
    salesQueryScope none (some adminNoLocation) = QueryScope.all ∧
    addCategory [] none (some adminNoLocation) "Snacks" none
      = (some SaleError.noLocationAssigned, []) :=
  ⟨(c3_no_location_amended adminNoLocation rfl).1.1,
   ((c3_no_location_amended adminNoLocation rfl).2 (by decide)).2.2 [] "Snacks" none⟩

/-! ### C8: addSale with no resolvable location -/

/-- C8.  When no location can be resolved for a sale (no `locationId` on
the sale data, no selected location, no user location), a non-superadmin
caller is rejected with the no-location error and no sale is persisted,
while a superadmin caller succeeds and the persisted sale carries a null
location. -/
theorem c8_add_sale_no_location (st : SalesState) (u : User) (date newId : String)
    (d : SaleData) (hd : d.locationId = none) (hu : u.locationId = none) :
    (u.role ≠ UserRole.superadmin →
      (addSale st none (some u) date newId d).1 = Except.error SaleError.noLocationAssigned ∧
      ((addSale st none (some u) date newId d).2).sales = st.sales) ∧
    (u.role = UserRole.superadmin →
      ∃ sale, (addSale st none (some u) date newId d).1 = Except.ok sale ∧
        sale.locationId = none ∧
        ((addSale st none (some u) date newId d).2).sales = st.sales ++ [sale]) := by
  constructor
  · intro hns
    simp only [addSale, resolveSaleLocation, hd, hu]
    rw [if_pos ⟨rfl, by simp [isSuperadminUser, hns]⟩]
    exact ⟨rfl, rfl⟩
  · intro hs
    simp only [addSale, resolveSaleLocation, hd, hu]
    rw [if_neg (by simp [isSuperadminUser, hs])]
    exact ⟨_, rfl, rfl, rfl⟩

/-- Witness data for C8: a salesperson with no assigned location. -/
def noLocSalesperson : User :=
  { uid := "u4", role := UserRole.salesperson, locationId := none, isActive := true }

/-- Witness data for C8: sale data carrying no location. -/
def emptySaleData : SaleData :=
  { items := [], subtotal := 0, cgst := 0, sgst := 0, total := 0,
    paymentMethod := "cash", createdBy := "u4", locationId := none }

/-- Witness for C8 at a concrete state: the location-less salesperson is
rejected and the sales collection stays empty. -/
theorem c8_add_sale_no_location_witness :
    (addSale scenarioSales0 none (some noLocSalesperson) "20260101" "s1" emptySaleData).1
      = Except.error SaleError.noLocationAssigned ∧
    ((addSale scenarioSales0 none (some noLocSalesperson) "20260101" "s1" emptySaleData).2).sales
      = scenarioSales0.sales :=
  (c8_add_sale_no_location scenarioSales0 noLocSalesperson "20260101" "s1" emptySaleData
    rfl rfl).1 (by decide)

/-! ### C9 and C10: the global invoice counter -/

/-- Reading the counter always yields the stored count plus one (a missing
counters document reads as zero). -/
theorem nextCount_eq (c : Option ℕ) : nextCount c = c.getD 0 + 1 := by
  cases c <;> rfl

/-- Zero padding contributes nothing to the decimal value. -/
theorem ofDigits_replicate_zero (b : ℕ) : ∀ k, Nat.ofDigits b (List.replicate k 0) = 0
  | 0 => rfl
  | k + 1 => by
    rw [List.replicate_succ, Nat.ofDigits_cons, ofDigits_replicate_zero b k]
    simp

/-- The padded digit string still denotes the count. -/
theorem ofDigits_padCount (c : ℕ) : Nat.ofDigits 10 (padCount c) = c := by
  unfold padCount
  rw [Nat.ofDigits_append, Nat.ofDigits_digits, ofDigits_replicate_zero]
  simp

/-- Distinct counts have distinct padded digit strings. -/
theorem padCount_injective {c1 c2 : ℕ} (h : padCount c1 = padCount c2) : c1 = c2 := by
  have h2 := congrArg (Nat.ofDigits 10) h
  rwa [ofDigits_padCount, ofDigits_padCount] at h2

/-- `Nat.digitChar` is injective below the base 10. -/
theorem digitChar_inj_lt {a b : ℕ} (ha : a < 10) (hb : b < 10)
    (h : Nat.digitChar a = Nat.digitChar b) : a = b := by
  have hfin : ∀ x y : Fin 10, Nat.digitChar x.val = Nat.digitChar y.val → x = y := by decide
  exact congrArg Fin.val (hfin ⟨a, ha⟩ ⟨b, hb⟩ h)

/-- Mapping `Nat.digitChar` over digit lists (entries below 10) is
injective. -/
theorem map_digitChar_inj : ∀ {l1 l2 : List ℕ}, (∀ a ∈ l1, a < 10) → (∀ a ∈ l2, a < 10) →
    l1.map Nat.digitChar = l2.map Nat.digitChar → l1 = l2
  | [], [], _, _, _ => rfl
  | [], _ :: _, _, _, h => by simp at h
  | _ :: _, [], _, _, h => by simp at h
  | a :: l1, b :: l2, h1, h2, h => by
    simp only [List.map_cons, List.cons.injEq] at h
    have hab : a = b := digitChar_inj_lt (h1 a (List.mem_cons_self a l1))
      (h2 b (List.mem_cons_self b l2)) h.1
    rw [hab, map_digitChar_inj (fun x hx => h1 x (List.mem_cons_of_mem _ hx))
      (fun x hx => h2 x (List.mem_cons_of_mem _ hx)) h.2]

/-- Every entry of the padded digit string is a decimal digit. -/
theorem padCount_lt {c a : ℕ} (h : a ∈ padCount c) : a < 10 := by
  unfold padCount at h
  rcases List.mem_append.mp h with h | h
  · exact Nat.digits_lt_base (by norm_num) h
  · rw [List.eq_of_mem_replicate h]
    norm_num

/-- Distinct counts have distinct zero-padded character strings. -/
theorem countChars_injective {c1 c2 : ℕ} (h : countChars c1 = countChars c2) : c1 = c2 := by
  unfold countChars at h
  have h2 := map_digitChar_inj (fun a ha => padCount_lt (List.mem_reverse.mp ha))
    (fun a ha => padCount_lt (List.mem_reverse.mp ha)) h
  have h3 := congrArg List.reverse h2
  rw [List.reverse_reverse, List.reverse_reverse] at h3
  exact padCount_injective h3

/-- For a fixed date, the invoice format is injective in the count: two
sales formatted on the same date with different counter values receive
different invoice numbers. -/
theorem formatInvoice_injective {date : String} {c1 c2 : ℕ}
    (h : formatInvoice date c1 = formatInvoice date c2) : c1 = c2 := by
  unfold formatInvoice at h
  have hd := congrArg String.data h
  simp only [String.data_append] at hd
  have h2 := List.append_cancel_left hd
  exact countChars_injective h2

/-- Every `addSale` call — accepted or rejected — persists the counter as
the read value plus one. -/
theorem addSale_counters (st : SalesState) (currentLocation : Option String)
    (currentUser : Option User) (date newId : String) (d : SaleData) :
    ((addSale st currentLocation currentUser date newId d).2).counters
      = some (st.counters.getD 0 + 1) := by
  simp only [addSale]
  split
  · rw [nextCount_eq]
  · rw [nextCount_eq]

/-- Every `addSale` call leaves the sales collection unchanged (rejection)
or appends exactly the one sale whose invoice number carries the count that
was read. -/
theorem addSale_sales (st : SalesState) (currentLocation : Option String)
    (currentUser : Option User) (date newId : String) (d : SaleData) :
    ((addSale st currentLocation currentUser date newId d).2).sales = st.sales ∨
    ∃ sale : Sale, ((addSale st currentLocation currentUser date newId d).2).sales
        = st.sales ++ [sale] ∧
      sale.invoiceNumber = formatInvoice date (st.counters.getD 0 + 1) ∧
      (addSale st currentLocation currentUser date newId d).1 = Except.ok sale := by
  simp only [addSale]
  split
  · left; rfl
  · right
    exact ⟨_, rfl, by rw [nextCount_eq], rfl⟩

/-- A successful `addSale` appends exactly the returned sale, whose invoice
number carries the count the call read. -/
theorem addSale_ok {st : SalesState} {currentLocation : Option String}
    {currentUser : Option User} {date newId : String} {d : SaleData} {sale : Sale}
    (hok : (addSale st currentLocation currentUser date newId d).1 = Except.ok sale) :
    sale.invoiceNumber = formatInvoice date (st.counters.getD 0 + 1) ∧
    ((addSale st currentLocation currentUser date newId d).2).sales = st.sales ++ [sale] := by
  by_cases hcond : (resolveSaleLocation d.locationId currentLocation currentUser).isNone = true ∧
      ¬ isSuperadminUser currentUser = true
  · exfalso
    simp only [addSale] at hok
    rw [if_pos hcond] at hok
    exact Except.noConfusion hok
  · simp only [addSale] at hok ⊢
    rw [if_neg hcond] at hok ⊢
    have hsale := (Except.ok.injEq _ _).mp hok
    subst hsale
    exact ⟨by rw [nextCount_eq], rfl⟩

/-- Elements of the left list of a `Forall₂` have related partners. -/
theorem forall₂_mem_left {α β : Type} {R : α → β → Prop} {a : α} :
    ∀ {l1 : List α} {l2 : List β}, List.Forall₂ R l1 l2 → a ∈ l1 → ∃ b ∈ l2, R a b := by
  intro l1 l2 hf ha
  induction hf with
  | nil => cases ha
  | cons hr hrest ih =>
    rcases List.mem_cons.mp ha with h | h
    · exact ⟨_, List.mem_cons_self _ _, h ▸ hr⟩
    · obtain ⟨b, hb, hab⟩ := ih h
      exact ⟨b, List.mem_cons_of_mem _ hb, hab⟩

/-- Transport a pairwise relation across a `Forall₂` correspondence. -/
theorem pairwise_of_forall₂ {α β : Type} {R : α → β → Prop} {S : β → β → Prop}
    {T : α → α → Prop}
    (hc : ∀ a b a2 b2, R a b → R a2 b2 → S b b2 → T a a2) :
    ∀ {l1 : List α} {l2 : List β}, List.Forall₂ R l1 l2 → List.Pairwise S l2 →
      List.Pairwise T l1 := by
  intro l1 l2 hf hp
  induction hf with
  | nil => exact List.Pairwise.nil
  | cons hr hrest ih =>
    rcases List.pairwise_cons.mp hp with ⟨hhead, htail⟩
    refine List.Pairwise.cons ?_ (ih htail)
    intro a2 ha2
    obtain ⟨b2, hb2, hab2⟩ := forall₂_mem_left hrest ha2
    exact hc _ _ _ _ hr hab2 (hhead b2 hb2)

/-- The behaviour of a sequential chain of `addSale` calls: the counter
advances once per call, the new sales extend the old collection, and their
invoice numbers carry strictly increasing counter values taken from the
interval just above the starting counter. -/
theorem runSales_spec (currentLocation : Option String) (currentUser : Option User)
    (date : String) :
    ∀ (datas : List (String × SaleData)) (st : SalesState),
    ∃ newSales : List Sale, ∃ cs : List ℕ,
      (runSales currentLocation currentUser date st datas).sales = st.sales ++ newSales ∧
      ((runSales currentLocation currentUser date st datas).counters.getD 0
        = st.counters.getD 0 + datas.length) ∧
      List.Forall₂ (fun (s : Sale) (c : ℕ) => s.invoiceNumber = formatInvoice date c)
        newSales cs ∧
      List.Pairwise (· < ·) cs ∧
      ∀ c ∈ cs, st.counters.getD 0 < c ∧ c ≤ st.counters.getD 0 + datas.length := by
  intro datas
  induction datas with
  | nil =>
    intro st
    exact ⟨[], [], by simp [runSales], by simp [runSales], List.Forall₂.nil,
      List.Pairwise.nil, by simp⟩
  | cons hd rest ih =>
    intro st
    obtain ⟨newId, d⟩ := hd
    have hrun : runSales currentLocation currentUser date st ((newId, d) :: rest)
        = runSales currentLocation currentUser date
            (addSale st currentLocation currentUser date newId d).2 rest := rfl
    have hcnt := addSale_counters st currentLocation currentUser date newId d
    have hbase : ((addSale st currentLocation currentUser date newId d).2).counters.getD 0
        = st.counters.getD 0 + 1 := by rw [hcnt]; rfl
    obtain ⟨ns, cs, hsales, hcnt2, hfa, hpw, hbd⟩ :=
      ih (addSale st currentLocation currentUser date newId d).2
    rcases addSale_sales st currentLocation currentUser date newId d with h | ⟨sale, hs, hinv, _⟩
    · refine ⟨ns, cs, ?_, ?_, hfa, hpw, ?_⟩
      · rw [hrun, hsales, h]
      · rw [hrun, hcnt2, hbase, List.length_cons]
        omega
      · intro c hc
        have := hbd c hc
        rw [hbase] at this
        constructor
        · omega
        · rw [List.length_cons]; omega
    · refine ⟨sale :: ns, (st.counters.getD 0 + 1) :: cs, ?_, ?_, ?_, ?_, ?_⟩
      · rw [hrun, hsales, hs, List.append_assoc]
        rfl
      · rw [hrun, hcnt2, hbase, List.length_cons]
        omega
      · exact List.Forall₂.cons hinv hfa
      · refine List.Pairwise.cons ?_ hpw
        intro c hc
        have := (hbd c hc).1
        rw [hbase] at this
        exact this
      · intro c hc
        rcases List.mem_cons.mp hc with h | h
        · subst h
          rw [List.length_cons]
          omega
        · have := hbd c h
          rw [hbase] at this
          rw [List.length_cons]
          omega

/-- C9.  Invoice numbers come from a single global counter independent of
any location: every `addSale` (whatever the location arguments) reads the
counters document, persists the read count plus one, and on success
appends a sale whose invoice number is the date-prefixed zero-padded count;
along any sequential chain of calls the counts are strictly increasing and
the persisted invoice numbers are pairwise distinct. -/
theorem c9_invoice_monotone_unique (st : SalesState) (currentLocation : Option String)
    (currentUser : Option User) (date : String) (datas : List (String × SaleData)) :
    (∀ newId d, ((addSale st currentLocation currentUser date newId d).2).counters
      = some (st.counters.getD 0 + 1)) ∧
    (∀ newId d sale, (addSale st currentLocation currentUser date newId d).1 = Except.ok sale →
      sale.invoiceNumber = formatInvoice date (st.counters.getD 0 + 1) ∧
      ((addSale st currentLocation currentUser date newId d).2).sales = st.sales ++ [sale]) ∧
    ∃ newSales : List Sale, ∃ cs : List ℕ,
      (runSales currentLocation currentUser date st datas).sales = st.sales ++ newSales ∧
      List.Forall₂ (fun (s : Sale) (c : ℕ) => s.invoiceNumber = formatInvoice date c)
        newSales cs ∧
      List.Pairwise (· < ·) cs ∧
      List.Pairwise (fun s t : Sale => s.invoiceNumber ≠ t.invoiceNumber) newSales := by
  refine ⟨fun newId d => addSale_counters st currentLocation currentUser date newId d,
    ?_, ?_⟩
  · intro newId d sale hok
    exact addSale_ok hok
  · obtain ⟨ns, cs, hsales, _, hfa, hpw, _⟩ :=
      runSales_spec currentLocation currentUser date datas st
    refine ⟨ns, cs, hsales, hfa, hpw, ?_⟩
    refine pairwise_of_forall₂ ?_ hfa hpw
    intro a b a2 b2 hab ha2b2 hlt heq
    rw [hab, ha2b2] at heq
    exact absurd (formatInvoice_injective heq) (Nat.ne_of_lt hlt)

/-- Witness for C9: two checkouts from a fresh state receive the invoice
numbers 0001 and 0002, which differ. -/
theorem c9_invoice_monotone_unique_witness :
    ((addSale scenarioSales0 none (some noLocSalesperson) "20260101" "s1" emptySaleData).2).counters
      = some 1 :=
  (c9_invoice_monotone_unique scenarioSales0 none (some noLocSalesperson) "20260101" []).1
    "s1" emptySaleData

/-- C10.  An `addSale` rejected with the no-location error has already
incremented and persisted the invoice counter — the counter mutation is not
rolled back — while no sale is persisted by the call, and no sale appended
by any later sequential chain of `addSale` calls (same date) ever carries
the invoice number the rejected call computed. -/
theorem c10_counter_advances_on_reject (st : SalesState) (currentLocation : Option String)
    (currentUser : Option User) (date newId : String) (d : SaleData)
    (herr : (addSale st currentLocation currentUser date newId d).1
      = Except.error SaleError.noLocationAssigned) :
    ((addSale st currentLocation currentUser date newId d).2).counters
      = some (st.counters.getD 0 + 1) ∧
    ((addSale st currentLocation currentUser date newId d).2).sales = st.sales ∧
    ∀ (datas : List (String × SaleData)) (s : Sale),
      s ∈ (runSales currentLocation currentUser date
        (addSale st currentLocation currentUser date newId d).2 datas).sales →
      s ∉ ((addSale st currentLocation currentUser date newId d).2).sales →
      s.invoiceNumber ≠ formatInvoice date (st.counters.getD 0 + 1) := by
  refine ⟨addSale_counters st currentLocation currentUser date newId d, ?_, ?_⟩
  · have hcond : (resolveSaleLocation d.locationId currentLocation currentUser).isNone = true ∧
        ¬ isSuperadminUser currentUser = true := by
      by_contra hc
      simp only [addSale] at herr
      rw [if_neg hc] at herr
      exact Except.noConfusion herr
    simp only [addSale]
    rw [if_pos hcond]
  · intro datas s hmem hnot
    obtain ⟨ns, cs, hsales, _, hfa, _, hbd⟩ := runSales_spec currentLocation currentUser date
      datas (addSale st currentLocation currentUser date newId d).2
    rw [hsales] at hmem
    rcases List.mem_append.mp hmem with h | h
    · exact absurd h hnot
    · obtain ⟨c, hc, hinv⟩ := forall₂_mem_left hfa h
      have hlow := (hbd c hc).1
      rw [addSale_counters st currentLocation currentUser date newId d] at hlow
      intro heq
      rw [hinv] at heq
      have := formatInvoice_injective heq
      subst this
      simp only [Option.getD_some] at hlow
      omega

/-- Witness for C10 at a concrete state: the rejected call leaves the
counter at 1 and the sales collection empty. -/
theorem c10_counter_advances_on_reject_witness :
    ((addSale scenarioSales0 none (some noLocSalesperson) "20260101" "s2" emptySaleData).2).counters
      = some 1 ∧
    ((addSale scenarioSales0 none (some noLocSalesperson) "20260101" "s2" emptySaleData).2).sales
      = scenarioSales0.sales :=
  ⟨(c10_counter_advances_on_reject scenarioSales0 none (some noLocSalesperson) "20260101" "s2"
      emptySaleData rfl).1,
   (c10_counter_advances_on_reject scenarioSales0 none (some noLocSalesperson) "20260101" "s2"
      emptySaleData rfl).2.1⟩

/-! ### C4: the duplicate-return guard -/

/-- Two returns referencing the same order share no item identifier (the
oriented form used with `List.Pairwise`, matching the spec's "no two
Returns may contain overlapping item identifiers"). -/
def overlapFree (r1 r2 : ReturnRec) : Prop :=
  r1.referenceId = r2.referenceId → ∀ i1 ∈ r1.items, ∀ i2 ∈ r2.items, i1.id ≠ i2.id

instance : DecidableRel overlapFree := fun r1 r2 => by
  unfold overlapFree
  infer_instance

/-- The product-update loop can fail only with a product-lookup error,
never with the duplicate-return error. -/
theorem applyReturnItems_no_duplicate (ty : ReturnType) :
    ∀ (items : List ReturnItem) (ps : List Product) (name : String),
      (applyReturnItems ty ps items).1 ≠ some (ReturnError.duplicateReturn name)
  | [], ps, name => by simp [applyReturnItems]
  | item :: rest, ps, name => by
    cases hfind : ps.find? fun p => p.id == item.productId with
    | none =>
      simp [applyReturnItems, hfind]
    | some product =>
      have hstep : applyReturnItems ty ps (item :: rest) = applyReturnItems ty
          (updateProduct ps product.id
            { product with quantity := product.quantity + returnDelta ty item.quantity })
          rest := by
        simp [applyReturnItems, hfind]
      rw [hstep]
      exact applyReturnItems_no_duplicate ty rest _ name

/-- When no submitted item is already returned, `addReturn` cannot throw
the duplicate-return error (its remaining failure modes are the location
guard and the product lookup). -/
theorem addReturn_no_dup_of_find_none {st : ReturnState} {currentLocation : Option String}
    {currentUser : Option User} {newId : String} {data : ReturnFormData}
    (hdup : (data.items.find? fun item =>
      isItemReturned st.returns data.referenceId item.id) = none) (name : String) :
    (addReturn st currentLocation currentUser newId data).1
      ≠ some (ReturnError.duplicateReturn name) := by
  simp only [addReturn, hdup]
  by_cases hcond : (resolveContextLocation currentLocation currentUser).isNone = true ∧
      ¬ isSuperadminUser currentUser = true
  · rw [if_pos hcond]
    intro h
    exact ReturnError.noConfusion (Option.some.inj h)
  · rw [if_neg hcond]
    cases happ : (applyReturnItems data.type st.products data.items).1 with
    | none =>
      dsimp only
      exact fun h => Option.noConfusion h
    | some err =>
      dsimp only
      intro h
      have herr : err = ReturnError.duplicateReturn name := Option.some.inj h
      apply applyReturnItems_no_duplicate data.type data.items st.products name
      rw [happ, herr]

/-- C4.  `addReturn` fails with the duplicate-return error exactly when
some submitted item already appears, by item identifier, in an existing
return with the same `referenceId`; such a failure leaves both the returns
collection and the products collection untouched (the duplicate check on
every item precedes every ledger delta); and a successful `addReturn`
preserves the invariant that no two returns referencing the same order
overlap in item identifiers. -/
theorem c4_duplicate_return (st : ReturnState) (currentLocation : Option String)
    (currentUser : Option User) (newId : String) (data : ReturnFormData)
    (hpw : List.Pairwise overlapFree st.returns) :
    ((∃ name, (addReturn st currentLocation currentUser newId data).1
        = some (ReturnError.duplicateReturn name)) ↔
      ∃ item ∈ data.items, isItemReturned st.returns data.referenceId item.id = true) ∧
    ((∃ name, (addReturn st currentLocation currentUser newId data).1
        = some (ReturnError.duplicateReturn name)) →
      (addReturn st currentLocation currentUser newId data).2 = st) ∧
    ((addReturn st currentLocation currentUser newId data).1 = none →
      List.Pairwise overlapFree
        ((addReturn st currentLocation currentUser newId data).2).returns) := by
  cases hdup : data.items.find? fun item =>
      isItemReturned st.returns data.referenceId item.id with
  | some item =>
    have heq : addReturn st currentLocation currentUser newId data
        = (some (ReturnError.duplicateReturn item.name), st) := by
      simp [addReturn, hdup]
    refine ⟨⟨fun _ => ⟨item, List.mem_of_find?_eq_some hdup, by
        simpa using List.find?_some hdup⟩,
      fun _ => ⟨item.name, by rw [heq]⟩⟩, fun _ => by rw [heq], ?_⟩
    intro hnone
    rw [heq] at hnone
    exact absurd hnone (by simp)
  | none =>
    have hiff : ¬ ∃ name, (addReturn st currentLocation currentUser newId data).1
        = some (ReturnError.duplicateReturn name) := by
      rintro ⟨name, hname⟩
      exact addReturn_no_dup_of_find_none hdup name hname
    have hnot : ¬ ∃ item ∈ data.items,
        isItemReturned st.returns data.referenceId item.id = true := by
      rintro ⟨item, hmem, hret⟩
      have := List.find?_eq_none.mp hdup item hmem
      exact this hret
    refine ⟨⟨fun h => absurd h hiff, fun h => absurd h hnot⟩,
      fun h => absurd h hiff, ?_⟩
    intro hnone
    simp only [addReturn, hdup] at hnone ⊢
    by_cases hcond : (resolveContextLocation currentLocation currentUser).isNone = true ∧
        ¬ isSuperadminUser currentUser = true
    · rw [if_pos hcond] at hnone
      exact absurd hnone (by simp)
    · rw [if_neg hcond] at hnone ⊢
      cases happ : (applyReturnItems data.type st.products data.items).1 with
      | some err =>
        rw [happ] at hnone
        dsimp only at hnone
        exact Option.noConfusion hnone
      | none =>
        dsimp only
        rw [List.pairwise_append]
        refine ⟨hpw, List.pairwise_singleton _ _, ?_⟩
        intro r hr nr hnr
        rw [List.mem_singleton] at hnr
        subst hnr
        intro href i1 hi1 i2 hi2
        have hfalse : isItemReturned st.returns data.referenceId i2.id = false := by
          have h2 := List.find?_eq_none.mp hdup i2 hi2
          simpa using h2
        unfold isItemReturned at hfalse
        rw [List.any_eq_false] at hfalse
        have hr2 := hfalse r hr
        intro hid
        apply hr2
        rw [Bool.and_eq_true]
        refine ⟨by rw [beq_iff_eq]; exact href, ?_⟩
        rw [List.any_eq_true]
        exact ⟨i1, hi1, by rw [beq_iff_eq]; exact hid⟩

/-- Witness data for C4 and C7: a live product with five units on hand. -/
def returnProduct : Product :=
  { id := "pr1", name := "Foxtail Millet", price := 50, quantity := 5,
    categoryId := "c1", locationId := some "L1" }

/-- Witness data for C4: an existing return of item `i1` of order `o1`. -/
def existingReturn : ReturnRec :=
  { id := "r0", type := ReturnType.sale, referenceId := "o1",
    items := [{ id := "i1", productId := "pr1", name := "Foxtail Millet",
                price := 50, quantity := 1 }],
    reason := "damaged", total := 50, refundMethod := "cash",
    locationId := some "L1", createdBy := none }

/-- Witness data for C4: the return state before the call. -/
def returnState0 : ReturnState :=
  { returns := [existingReturn], products := [returnProduct] }

/-- Witness data for C4: a second return against order `o1` covering the
not-yet-returned item `i2` (quantity 2 at price 50, Scenario B shape). -/
def secondReturnData : ReturnFormData :=
  { type := ReturnType.sale, referenceId := "o1",
    items := [{ id := "i2", productId := "pr1", name := "Foxtail Millet",
                price := 50, quantity := 2 }],
    reason := "expired", total := none, refundMethod := "cash" }

/-- Witness for C4 at a concrete state: a successful second return of a
different item keeps the overlap-free invariant on the returns
collection. -/
theorem c4_duplicate_return_witness :
    List.Pairwise overlapFree
      ((addReturn returnState0 (some "L1") none "r1" secondReturnData).2).returns :=
  (c4_duplicate_return returnState0 (some "L1") none "r1" secondReturnData
    (by decide)).2.2 (by decide)

/-! ### C7: the ledger effect and total of a successful return -/

/-- A completed product-update loop changes each product's quantity by the
signed sum of the submitted deltas for that product. -/
theorem applyReturnItems_ok_qtyOf (ty : ReturnType) :
    ∀ (items : List ReturnItem) (ps : List Product),
      (applyReturnItems ty ps items).1 = none →
      ∀ pid, qtyOf (applyReturnItems ty ps items).2 pid
        = qtyOf ps pid + ((items.filter fun i => i.productId == pid).map
            fun i => returnDelta ty i.quantity).sum
  | [], ps, h, pid => by simp [applyReturnItems]
  | item :: rest, ps, h, pid => by
    cases hfind : ps.find? fun p => p.id == item.productId with
    | none =>
      rw [show applyReturnItems ty ps (item :: rest)
          = (some (ReturnError.productNotFound item.name), ps) from by
        simp [applyReturnItems, hfind]] at h
      exact absurd h (by simp)
    | some product =>
      have hstep : applyReturnItems ty ps (item :: rest)
          = applyReturnItems ty (updateProduct ps product.id
              { product with quantity := product.quantity + returnDelta ty item.quantity })
              rest := by
        simp [applyReturnItems, hfind]
      rw [hstep] at h ⊢
      rw [applyReturnItems_ok_qtyOf ty rest _ h pid]
      have hpid2 : product.id = item.productId := (find?_eq_some_id hfind).1
      by_cases hpid : item.productId = pid
      · have hfind2 : (ps.find? fun x => x.id == pid) = some product := by
          rw [← hpid]
          exact hfind
        have hq1 : qtyOf (updateProduct ps product.id
            { product with quantity := product.quantity + returnDelta ty item.quantity }) pid
            = product.quantity + returnDelta ty item.quantity :=
          @qtyOf_updateProduct_self ps pid product
            { product with quantity := product.quantity + returnDelta ty item.quantity }
            hfind2 rfl
        rw [hq1]
        have hq0 : qtyOf ps pid = product.quantity := by
          unfold qtyOf
          rw [hfind2]
        rw [hq0]
        have hhead : (item.productId == pid) = true := beq_iff_eq.mpr hpid
        rw [List.filter_cons]
        rw [hhead]
        rw [if_pos rfl]
        rw [List.map_cons, List.sum_cons]
        omega
      · have hne : pid ≠ product.id := by
          intro hcontra
          exact hpid (by rw [hpid2] at hcontra; exact hcontra.symm)
        rw [qtyOf_updateProduct_ne
          (p := { product with quantity := product.quantity + returnDelta ty item.quantity })
          rfl hne]
        have hhead : (item.productId == pid) = false :=
          beq_eq_false_iff_ne.mpr hpid
        rw [List.filter_cons, hhead]
        rw [if_neg Bool.false_ne_true]

/-- With pairwise distinct product ids, the per-product filter of the
submitted items collapses to the single matching item. -/
theorem filter_single_of_nodup {l : List ReturnItem}
    (hnd : (l.map fun i => i.productId).Nodup) {a : ReturnItem} (ha : a ∈ l) :
    (l.filter fun i => i.productId == a.productId) = [a] := by
  induction l with
  | nil => cases ha
  | cons b l ih =>
    rw [List.map_cons, List.nodup_cons] at hnd
    rcases List.mem_cons.mp ha with h | h
    · subst h
      rw [List.filter_cons, beq_self_eq_true, if_pos rfl]
      have htail : (l.filter fun i => i.productId == a.productId) = [] := by
        rw [List.filter_eq_nil_iff]
        intro i hi hcontra
        apply hnd.1
        rw [← beq_iff_eq.mp hcontra]
        exact List.mem_map_of_mem _ hi
      rw [htail]
    · have hbne : (b.productId == a.productId) = false := by
        rw [beq_eq_false_iff_ne]
        intro hcontra
        apply hnd.1
        rw [hcontra]
        exact List.mem_map_of_mem _ h
      rw [List.filter_cons, hbne, if_neg Bool.false_ne_true]
      exact ih hnd.2 h

/-- Decomposition of a successful `addReturn`: the update loop completed,
the resulting products are the loop's output, and the persisted return
carries the `data.total || computed` refund total. -/
theorem addReturn_ok_parts {st : ReturnState} {currentLocation : Option String}
    {currentUser : Option User} {newId : String} {data : ReturnFormData} {st2 : ReturnState}
    (h : addReturn st currentLocation currentUser newId data = (none, st2)) :
    (applyReturnItems data.type st.products data.items).1 = none ∧
    st2.products = (applyReturnItems data.type st.products data.items).2 ∧
    ∃ r : ReturnRec, st2.returns = st.returns ++ [r] ∧ r.items = data.items ∧
      r.total = (match data.total with
        | some t => if t = 0 then returnItemsSum data.items else t
        | none => returnItemsSum data.items) := by
  cases hdup : data.items.find? fun item =>
      isItemReturned st.returns data.referenceId item.id with
  | some item =>
    rw [show addReturn st currentLocation currentUser newId data
        = (some (ReturnError.duplicateReturn item.name), st) from by
      simp [addReturn, hdup]] at h
    exact absurd (congrArg Prod.fst h) (by simp)
  | none =>
    simp only [addReturn, hdup] at h
    by_cases hcond : (resolveContextLocation currentLocation currentUser).isNone = true ∧
        ¬ isSuperadminUser currentUser = true
    · rw [if_pos hcond] at h
      exact absurd (congrArg Prod.fst h) (by simp)
    · rw [if_neg hcond] at h
      cases happ : (applyReturnItems data.type st.products data.items).1 with
      | some err =>
        rw [happ] at h
        dsimp only at h
        exact absurd (congrArg Prod.fst h) (by simp)
      | none =>
        rw [happ] at h
        dsimp only at h
        have hst2 := congrArg Prod.snd h
        dsimp only at hst2
        refine ⟨rfl, ?_, ?_⟩
        · rw [← hst2]
        · exact ⟨_, by rw [← hst2], rfl, rfl⟩

/-- C7 (amended).  A successful `addReturn` whose items name pairwise
distinct products increases each returned item's live quantity by
`item.quantity` for sale-returns and decreases it by `item.quantity` for
purchase-returns, and the persisted total is the caller-supplied total when
that is provided and nonzero, and the computed sum of `price × quantity`
otherwise (a caller-supplied total of 0 is falsy in `data.total || sum` and
is replaced by the computed sum). -/
theorem c7_return_effects_amended (st : ReturnState) (currentLocation : Option String)
    (currentUser : Option User) (newId : String) (data : ReturnFormData) (st2 : ReturnState)
    (hnd : (data.items.map fun i => i.productId).Nodup)
    (h : addReturn st currentLocation currentUser newId data = (none, st2)) :
    (∃ r : ReturnRec, st2.returns = st.returns ++ [r] ∧
      (∀ t, data.total = some t → t ≠ 0 → r.total = t) ∧
      ((data.total = none ∨ data.total = some 0) →
        r.total = returnItemsSum data.items)) ∧
    ∀ item ∈ data.items,
      qtyOf st2.products item.productId
        = qtyOf st.products item.productId + returnDelta data.type item.quantity := by
  obtain ⟨happ, hprod, r, hret, hitems, htotal⟩ := addReturn_ok_parts h
  constructor
  · refine ⟨r, hret, ?_, ?_⟩
    · intro t ht hne
      rw [htotal, ht]
      dsimp only
      rw [if_neg hne]
    · intro hcase
      rcases hcase with hc | hc <;> rw [htotal, hc]
      dsimp only
      rw [if_pos rfl]
  · intro item hmem
    rw [hprod]
    rw [applyReturnItems_ok_qtyOf data.type data.items st.products happ item.productId]
    rw [filter_single_of_nodup hnd hmem]
    rw [List.map_singleton, List.sum_singleton]

/-- Counterexample data for C7: the same second-return form but with a
caller-supplied total of 0. -/
def zeroTotalReturnData : ReturnFormData :=
  { type := ReturnType.sale, referenceId := "o2",
    items := [{ id := "i2", productId := "pr1", name := "Foxtail Millet",
                price := 50, quantity := 2 }],
    reason := "expired", total := some 0, refundMethod := "cash" }

/-- Counterexample to C7 as stated: a caller-supplied total of 0 is
provided, yet the persisted return records the computed 100 (JavaScript
`data.total || sum` treats 0 as absent). -/
theorem c7_total_counterexample :
    zeroTotalReturnData.total = some 0 ∧
    (((addReturn { returns := [], products := [returnProduct] } (some "L1") none "r1"
        zeroTotalReturnData).2).returns.map fun r => r.total) = [100] ∧
    (100 : ℚ) ≠ 0 := by
  refine ⟨rfl, ?_, by norm_num⟩
  show [(0 : ℚ) + 50 * ((2 : ℤ) : ℚ)] = [100]
  norm_num

/-- Witness for C7 (amended), Scenario B: fully returning an item of
quantity 2 at price 50 raises the product's on-hand quantity from 5 to 7,
a delta of exactly +2. -/
theorem c7_return_effects_amended_witness :
    qtyOf (((addReturn returnState0 (some "L1") none "r1" secondReturnData).2).products) "pr1"
      = qtyOf returnState0.products "pr1" + returnDelta ReturnType.sale 2 :=
  (c7_return_effects_amended returnState0 (some "L1") none "r1" secondReturnData
      (addReturn returnState0 (some "L1") none "r1" secondReturnData).2
      (by decide) (Prod.ext (by decide) rfl)).2
    { id := "i2", productId := "pr1", name := "Foxtail Millet", price := 50, quantity := 2 }
    (by decide)

end POS
